import Mathlib

/-!
Shallow embedding of the `twitch-irc` terminal chat client
(single source file `src/main.rs`).

Modelling conventions:
* Rust `&str` / `String` values are modelled as `List Char`.  Byte indices,
  `char` indices and grapheme-cluster counts are identified (exact for
  single-byte text, which is what every concrete input below uses).
* Machine integers (`u16`, `usize`) are modelled as `Nat`.  Saturating
  subtraction (`saturating_sub`) coincides with truncated `Nat` subtraction.
  A plain unsigned subtraction that can underflow, an `unwrap()` on `None`/
  `Err`, and a string slice `s[a..b]` with `a > b` or `b > len` are runtime
  panics; they are modelled explicitly by the `panic` constructor of
  `PResult` (for the parser) and `StepOut.panic` (for the key dispatcher).
* The fallible external capabilities (clipboard, outbound send) are
  modelled by a `Caps` record carrying the outcome each capability call
  would produce during the dispatched step.
-/

namespace TwitchIrc

/-- Outcome of running a piece of Rust code that can panic. -/
inductive PResult (α : Type) where
  | panic : PResult α
  | ok : α → PResult α
  deriving DecidableEq, Repr

def PResult.bind {α β : Type} : PResult α → (α → PResult β) → PResult β
  | .panic, _ => .panic
  | .ok a, f => f a

/-- Rust slice `s[a..b]` on our char-list model: panics unless `a ≤ b ≤ len`. -/
def rustSlice (s : List Char) (a b : Nat) : PResult (List Char) :=
  if a ≤ b ∧ b ≤ s.length then .ok ((s.drop a).take (b - a)) else .panic

/-- Rust `str::find(char)`: index of the first occurrence. -/
def findIdxC (c : Char) : List Char → Option Nat
  | [] => none
  | x :: xs => if x = c then some 0 else (findIdxC c xs).map (· + 1)

/-- Rust `str::rfind(char)`: index of the last occurrence. -/
def rfindIdxC (c : Char) : List Char → Option Nat
  | [] => none
  | x :: xs =>
    match rfindIdxC c xs with
    | some i => some (i + 1)
    | none => if x = c then some 0 else none

/-- Rust `str::split(sep)` (so `"" ↦ [""]`, `"a;;b" ↦ ["a","","b"]`). -/
def splitOnC (sep : Char) : List Char → List (List Char)
  | [] => [[]]
  | x :: xs =>
    let r := splitOnC sep xs
    if x = sep then [] :: r
    else
      match r with
      | [] => [[x]]
      | y :: ys => (x :: y) :: ys

/-- Rust `str::split_once(sep)`. -/
def splitOnceC (sep : Char) (l : List Char) : Option (List Char × List Char) :=
  match findIdxC sep l with
  | none => none
  | some i => some (l.take i, l.drop (i + 1))

/-- `Tags` (a `HashMap<String, String>` in the source).  Modelled as an
association list where `insert` prepends, so lookup of the first match
realizes the map's replace-on-insert semantics. -/
structure Tags where
  pairs : List (List Char × List Char)
  deriving DecidableEq, Repr

/-- `Tags::get`. -/
def Tags.get (t : Tags) (k : List Char) : Option (List Char) :=
  (t.pairs.find? (fun p => p.1 == k)).map (·.2)

/-- The `for tag in message.split(';')` loop body of `Tags::parse`:
`tag.split_once('=').unwrap()` panics when a piece has no `'='`. -/
def tagsFromPiecesGo : List (List Char) → List (List Char × List Char) → PResult Tags
  | [], acc => .ok ⟨acc⟩
  | piece :: rest, acc =>
    match splitOnceC '=' piece with
    | none => .panic
    | some (k, v) => tagsFromPiecesGo rest ((k, v) :: acc)

def tagsFromPieces (ps : List (List Char)) : PResult Tags :=
  tagsFromPiecesGo ps []

/-- `Tags::parse(raw_message, pos)`.  Faithful to the source, including the
relative/absolute index confusion: `space_index` is found relative to
`raw_message[pos..]` but the tag block is sliced as
`raw_message[pos..space_index]` (absolute) and `pos` is set to the
relative `space_index + 1`.  Returns `some (tags, newPos)` on success,
`none` when the block is absent or has no terminating space. -/
def Tags.parse (raw : List Char) (pos : Nat) : PResult (Option (Tags × Nat)) :=
  if pos ≤ raw.length then
    let rest := raw.drop pos
    if rest.head? = some '@' then
      match findIdxC ' ' rest with
      | some spaceIndex =>
        (rustSlice raw pos spaceIndex).bind fun message =>
        (tagsFromPieces (splitOnC ';' message)).bind fun t =>
        .ok (some (t, spaceIndex + 1))
      | none => .ok none
    else .ok none
  else .panic

/-- The `Prefix` struct of the source (origin of a message).  Named
`IrcPrefix` because `prefix` is reserved in Lean. -/
structure IrcPrefix where
  nick : Option (List Char)
  user : Option (List Char)
  host : List Char
  deriving DecidableEq, Repr

/-- `Prefix::parse(raw_message, pos)`.  Note that the source searches for
`'!'` and `'@'` in the whole remainder `raw_message[pos..]`, not only in
the span up to the prefix-terminating space. -/
def IrcPrefix.parse (raw : List Char) (pos : Nat) : PResult (Option (IrcPrefix × Nat)) :=
  if pos ≤ raw.length then
    let rest := raw.drop pos
    if rest.head? = some ':' then
      let hostStart := pos + 1
      match findIdxC ' ' rest with
      | none => .ok none
      | some endIndex =>
        match findIdxC '!' rest with
        | some userIndex =>
          (rustSlice raw hostStart (pos + userIndex)).bind fun nickChars =>
          match findIdxC '@' rest with
          | none => .ok none
          | some hostStart2 =>
            (rustSlice raw (pos + userIndex + 1) (pos + hostStart2)).bind fun userChars =>
            (rustSlice raw (pos + hostStart2 + 1) (pos + endIndex)).bind fun hostChars =>
            .ok (some (⟨some nickChars, some userChars, hostChars⟩, pos + endIndex + 1))
        | none =>
          (rustSlice raw hostStart (pos + endIndex)).bind fun hostChars =>
          .ok (some (⟨none, none, hostChars⟩, pos + endIndex + 1))
    else .ok none
  else .panic

inductive IRCCommand where
  | Privmsg : List Char → List Char → IRCCommand
  | GlobalUserState : IRCCommand
  | Unknown : List Char → IRCCommand
  | CapAck : IRCCommand
  | Ping : IRCCommand
  deriving DecidableEq, Repr

/-- `IRCCommand::parse(raw_message, pos)` (the source never mutates `pos`
here, so no position is returned).  In the `PRIVMSG ` branch the channel
slice `privmsg[channel_start + 1..message_start - 1]` panics when
`message_start = 0` (usize underflow) or when the range is invalid. -/
def IRCCommand.parse (raw : List Char) (pos : Nat) : PResult (Option IRCCommand) :=
  if pos ≤ raw.length then
    let rest := raw.drop pos
    if ("PRIVMSG ".toList).isPrefixOf rest then
      let privmsg := rest.drop 8
      match findIdxC '#' privmsg with
      | none => .ok none
      | some channelStart =>
        match findIdxC ':' privmsg with
        | none => .ok none
        | some messageStart =>
          if messageStart = 0 then .panic
          else
            (rustSlice privmsg (channelStart + 1) (messageStart - 1)).bind fun channel =>
            .ok (some (.Privmsg channel (privmsg.drop (messageStart + 1))))
    else if ("GLOBALUSERSTATE".toList).isPrefixOf rest then .ok (some .GlobalUserState)
    else if ("CAP * ACK".toList).isPrefixOf rest then .ok (some .CapAck)
    else if ("PING :tmi.twitch.tv\r\n".toList).isPrefixOf rest then .ok (some .Ping)
    else .ok (some (.Unknown rest))
  else .panic

structure IRCMessage where
  tags : Tags
  pfx : IrcPrefix
  command : IRCCommand
  deriving DecidableEq, Repr

/-- `IRCMessage::parse(raw_message)`: tags (`unwrap_or_default`), then
prefix (`?`), then command (`?`). -/
def IRCMessage.parse (raw : List Char) : PResult (Option IRCMessage) :=
  match Tags.parse raw 0 with
  | .panic => .panic
  | .ok tagsOpt =>
    let tp : Tags × Nat :=
      match tagsOpt with
      | some (t, p) => (t, p)
      | none => (⟨[]⟩, 0)
    match IrcPrefix.parse raw tp.2 with
    | .panic => .panic
    | .ok none => .ok none
    | .ok (some (pfx, pos2)) =>
      match IRCCommand.parse raw pos2 with
      | .panic => .panic
      | .ok none => .ok none
      | .ok (some cmd) => .ok (some ⟨tp.1, pfx, cmd⟩)

/-- The position after the tag stage, as used by `IRCMessage::parse`. -/
def tagsPosOf (raw : List Char) : Nat :=
  match Tags.parse raw 0 with
  | .ok (some (_, p)) => p
  | _ => 0

/-- The `Privmsg` struct held in the scrollback (`chat_messages`). -/
structure Privmsg where
  tags : Tags
  pfx : IrcPrefix
  channel : List Char
  message : List Char
  deriving DecidableEq, Repr

/-- `Privmsg::message_line`: `format!("{}: {}", display-name tag
(falling back to prefix user, then channel), message)`. -/
def Privmsg.message_line (p : Privmsg) : List Char :=
  (match p.tags.get ("display-name".toList) with
   | some name => name
   | none =>
     match p.pfx.user with
     | some u => u
     | none => p.channel) ++ (": ".toList) ++ p.message

/-- `Privmsg::message_line_len` (grapheme count = list length in this model). -/
def Privmsg.message_line_len (p : Privmsg) : Nat :=
  p.message_line.length

/-- The `Mode` enum of the source (`Y`, `D` are the pending operator modes). -/
inductive Mode where
  | Normal : Mode
  | Insert : Mode
  | Y : Mode
  | D : Mode
  deriving DecidableEq, Repr

/-- The mutable state of the interaction loop in `main`. -/
structure AppState where
  mode : Mode
  row : Nat
  column : Nat
  sendMessage : List Char
  chatMessages : List Privmsg
  userTags : Option Tags
  deriving DecidableEq, Repr

/-- `crossterm` key codes used by the dispatcher (`other` stands for every
key code that matches none of the source's arms). -/
inductive KeyCode where
  | esc : KeyCode
  | enter : KeyCode
  | backspace : KeyCode
  | left : KeyCode
  | right : KeyCode
  | endKey : KeyCode
  | char : Char → KeyCode
  | other : KeyCode
  deriving DecidableEq, Repr

structure KeyEvent where
  code : KeyCode
  ctrl : Bool
  deriving DecidableEq, Repr

/-- Outcomes the external capabilities would produce during one dispatched
key event: `clipGet` is the result of `clipboard.get_text()` (`none` = `Err`),
`clipSetOk` whether `clipboard.set_text(..)` returns `Ok`, `sendOk` whether
`irc.send_message(..)` returns `Ok`; `nick`/`channel` are the session data. -/
structure Caps where
  clipGet : Option (List Char)
  clipSetOk : Bool
  sendOk : Bool
  nick : List Char
  channel : List Char
  deriving DecidableEq, Repr

/-- Result of dispatching one key event: `quit` models `break` out of the
interaction loop, `panic` an `unwrap`/slice/underflow panic. -/
inductive StepOut where
  | panic : StepOut
  | quit : AppState → StepOut
  | cont : AppState → StepOut
  deriving DecidableEq, Repr

/-- `'b'` column computation:
`line[..col.saturating_sub(1)].rfind(' ').map(|i| i + 1).unwrap_or(0)`. -/
def wordBack (line : List Char) (col : Nat) : Nat :=
  match rfindIdxC ' ' (line.take (col - 1)) with
  | some i => i + 1
  | none => 0

/-- The `Event::Key(..) => match key_event.code { Char(c) => .. }` arm chain,
in the source's order.  `start` is `messages_lines_start_pos`, `idx` is
`current_message_index` (both computed before the event is read).
`if totalRows = 0 then panic` marks each place the source evaluates the
plain `u16` subtraction `total_rows - 1` (which underflows at 0); likewise
the `row2 < start` panic in `'j'` marks `cursor_pos.row -
messages_lines_start_pos` underflowing. -/
def dispatchChar (totalRows totalColumns : Nat) (caps : Caps) (st : AppState)
    (ctrl : Bool) (start idx : Nat) (c : Char) : StepOut :=
  if c = 'q' ∧ ctrl then .quit st
  else if c = 'c' ∧ ctrl then .quit st
  else if c = 'i' ∧ st.mode = .Normal then
    if totalRows = 0 then .panic
    else if st.row < totalRows - 1 then
      .cont { st with mode := .Insert, row := totalRows - 1,
                      column := st.sendMessage.length }
    else .cont { st with mode := .Insert }
  else if c = 'h' ∧ st.mode = .Normal then
    if totalRows = 0 then .panic
    else if totalRows - 1 ≤ st.row then
      .cont { st with column := st.column - 1 }
    else if 0 < st.column then
      .cont { st with column := st.column - 1 }
    else if st.row < start then
      .cont { st with row := st.row - 1 }
    else .cont st
  else if c = 'j' ∧ st.mode = .Normal then
    if totalRows = 0 then .panic
    else
      let row2 := min (totalRows - 1) (st.row + 1)
      if totalRows - 1 ≤ row2 then
        .cont { st with row := row2, column := min st.column st.sendMessage.length }
      else if row2 < start then .panic
      else
        match st.chatMessages.get? (row2 - start) with
        | none => .cont { st with row := row2 }
        | some m =>
          .cont { st with row := row2, column := min st.column m.message_line_len }
  else if c = 'k' ∧ st.mode = .Normal then
    if start < st.row ∧ 0 < st.chatMessages.length then
      .cont { st with row := st.row - 1 }
    else .cont st
  else if c = 'l' ∧ st.mode = .Normal then
    if totalRows = 0 then .panic
    else if totalRows - 1 ≤ st.row then
      if st.column < st.sendMessage.length then
        .cont { st with column := st.column + 1 }
      else .cont st
    else
      match st.chatMessages.get? idx with
      | none => .cont st
      | some m =>
        if m.message_line_len ≤ st.column ∧ st.chatMessages.length ≤ st.row then
          .cont { st with row := st.row + 1, column := 0 }
        else .cont { st with column := st.column + 1 }
  else if c = 'b' ∧ st.mode = .Normal then
    if totalRows = 0 then .panic
    else if totalRows - 1 ≤ st.row then
      if st.column - 1 ≤ st.sendMessage.length then
        .cont { st with column := wordBack st.sendMessage st.column }
      else .panic
    else
      match st.chatMessages.get? idx with
      | none => .cont st
      | some m =>
        if st.column - 1 ≤ m.message_line.length then
          .cont { st with column := wordBack m.message_line st.column }
        else .panic
  else if c = 'w' ∧ st.mode = .Normal then
    if totalRows = 0 then .panic
    else if totalRows - 1 ≤ st.row then
      if st.column + 1 ≤ st.sendMessage.length then
        let slice := st.sendMessage.drop (st.column + 1)
        let delta :=
          match findIdxC ' ' slice with
          | some i => i + 1
          | none => slice.length - st.column
        .cont { st with column := st.column + delta }
      else .cont st
    else
      match st.chatMessages.get? idx with
      | none => .cont st
      | some m =>
        if st.column + 1 ≤ m.message_line.length then
          let slice := m.message_line.drop (st.column + 1)
          let delta :=
            match findIdxC ' ' slice with
            | some i => i + 1
            | none => m.message_line_len - st.column
          .cont { st with column := st.column + delta }
        else .cont st
  else if c = '$' ∧ st.mode = .Normal then
    match st.chatMessages.get? idx with
    | none => .cont st
    | some m => .cont { st with column := m.message_line_len }
  else if c = '^' ∧ st.mode = .Normal then
    .cont { st with column := 0 }
  else if c = 'y' ∧ st.mode = .Normal then
    .cont { st with mode := .Y }
  else if c = 'd' ∧ st.mode = .Normal then
    .cont { st with mode := .D }
  else if st.mode = .Y then
    if c = 'y' then
      match st.chatMessages.get? idx with
      | some _ => if caps.clipSetOk then .cont { st with mode := .Normal } else .panic
      | none => .cont { st with mode := .Normal }
    else .cont { st with mode := .Normal }
  else if st.mode = .D then
    if c = 'd' then
      if totalRows = 0 then .panic
      else if st.row = totalRows - 1 then
        if caps.clipSetOk then
          .cont { st with mode := .Normal, sendMessage := [], column := 0 }
        else .panic
      else .cont { st with mode := .Normal }
    else .cont { st with mode := .Normal }
  else if c = 'P' ∧ st.mode = .Normal then
    match caps.clipGet with
    | none => .cont st
    | some txt =>
      if totalRows = 0 then .panic
      else
        let st1 :=
          if st.row ≠ totalRows - 1 then
            { st with row := totalRows - 1, column := st.sendMessage.length }
          else st
        if st1.column ≤ st1.sendMessage.length then
          .cont { st1 with
            sendMessage := st1.sendMessage.take st1.column ++ txt ++
              st1.sendMessage.drop st1.column,
            column := st1.column + txt.length }
        else .panic
  else if st.mode = .Insert then
    if st.column ≤ st.sendMessage.length then
      .cont { st with
        sendMessage := st.sendMessage.take st.column ++ [c] ++
          st.sendMessage.drop st.column,
        column := st.column + 1 }
    else .panic
  else .cont st

/-- One dispatched keyboard event of the interaction loop in `main`
(the body of `match event::read() { Event::Key(..) => .. }`). -/
def dispatch (totalRows totalColumns : Nat) (caps : Caps) (st : AppState)
    (key : KeyEvent) : StepOut :=
  let start := totalRows - st.chatMessages.length - 1
  let idx := st.row - start
  match key.code with
  | .esc => .cont { st with mode := .Normal }
  | .enter =>
    if st.mode = .Insert then
      if st.sendMessage = [] then .cont st
      else if caps.sendOk then
        let st1 := { st with
          chatMessages := st.chatMessages ++
            [⟨st.userTags.getD ⟨[]⟩,
              ⟨some caps.nick, some caps.nick, "idk".toList⟩,
              caps.channel, st.sendMessage⟩] }
        if key.ctrl then .cont st1
        else .cont { st1 with sendMessage := [], column := 0 }
      else .cont st
    else .cont st
  | .backspace =>
    if st.mode = .Insert then
      if st.column ≤ st.sendMessage.length ∧ 0 < st.sendMessage.length then
        .cont { st with sendMessage := st.sendMessage.eraseIdx (st.column - 1),
                        column := st.column - 1 }
      else .cont st
    else .cont st
  | .right =>
    if st.mode = .Insert then
      .cont { st with column := min (min (st.column + 1) st.sendMessage.length) totalColumns }
    else .cont st
  | .left =>
    if st.mode = .Insert then .cont { st with column := st.column - 1 }
    else .cont st
  | .endKey =>
    if st.mode = .Insert then .cont { st with column := st.sendMessage.length }
    else .cont st
  | .char c => dispatchChar totalRows totalColumns caps st key.ctrl start idx c
  | .other => .cont st

/-- The state of the interaction loop right after startup: cursor at
`(row = total_rows, column = 0)`, mode `Normal`, empty scrollback and
compose buffer. -/
def initialState (totalRows : Nat) : AppState :=
  { mode := .Normal, row := totalRows, column := 0, sendMessage := [],
    chatMessages := [], userTags := none }

/-- The `for (i, message) in chat_messages[messages_start..].iter().enumerate()`
loop of `draw`: one `(row, text)` print per entry, consecutive rows. -/
def drawPrints (firstRow : Nat) : List Privmsg → List (Nat × List Char)
  | [] => []
  | m :: ms => (firstRow, m.message_line) :: drawPrints (firstRow + 1) ms

/-- The `draw` function, as the ordered list of `(row, text)` print
operations it queues on the display surface: the tail of the scrollback
starting at screen row `first_message_pos`, then the compose buffer at
row `total_rows` (one past the last valid 0-indexed screen row). -/
def draw (chatMessages : List Privmsg) (sendMessage : List Char) (totalRows : Nat) :
    List (Nat × List Char) :=
  let messagesStart := chatMessages.length - totalRows
  let firstMessagePos := totalRows - chatMessages.length - 1
  drawPrints firstMessagePos (chatMessages.drop messagesStart)
  ++ [(totalRows, sendMessage)]

/-- The capability request sent first by `IRC::new`. -/
def capabilityRequest : List Char :=
  "CAP REQ :twitch.tv/membership twitch.tv/tags twitch.tv/commands\r\n".toList

/-- The `recv_timeout` bound of the handshake, `Duration::from_secs(5)`. -/
def handshakeTimeoutSecs : Nat := 5

/-- Outcome of `irc_message_receiver.recv_timeout(..)` during the handshake:
`timeout` and `closed` are the two `RecvTimeoutError` cases (both turned
into an error by `?`), `received m` a delivered message. -/
inductive RecvOut where
  | timeout : RecvOut
  | closed : RecvOut
  | received : IRCMessage → RecvOut
  deriving DecidableEq, Repr

/-- The handshake portion of `IRC::new` after the TCP connect and thread
spawns, abstracted over the first inbound receive: returns the ordered
list of outbound records pushed onto the writer queue and whether a
session value is returned (`true`) or the constructor fails (`false`). -/
def IRC.new (authToken nick channel : List Char) (firstRecv : RecvOut) :
    List (List Char) × Bool :=
  match firstRecv with
  | .timeout => ([capabilityRequest], false)
  | .closed => ([capabilityRequest], false)
  | .received m =>
    match m.command with
    | .CapAck =>
      ([capabilityRequest,
        "PASS oauth:".toList ++ authToken ++ "\r\n".toList,
        "NICK ".toList ++ nick ++ "\r\n".toList,
        "JOIN #".toList ++ channel ++ "\r\n".toList], true)
    | _ => ([capabilityRequest], false)

theorem findIdxC_eq_none_iff (c : Char) (l : List Char) :
    findIdxC c l = none ↔ c ∉ l := by
  induction l with
  | nil => simp [findIdxC]
  | cons x xs ih =>
    simp only [findIdxC, List.mem_cons]
    by_cases h : x = c
    · subst h; simp
    · rw [if_neg h]
      simp only [Option.map_eq_none', ih]
      constructor
      · intro hn hmem
        rcases hmem with rfl | hmem
        · exact h rfl
        · exact hn hmem
      · intro hn hmem
        exact hn (Or.inr hmem)

theorem findIdxC_lt_length {c : Char} : ∀ {l : List Char} {i : Nat},
    findIdxC c l = some i → i < l.length := by
  intro l
  induction l with
  | nil => intro i h; simp [findIdxC] at h
  | cons x xs ih =>
    intro i h
    simp only [findIdxC] at h
    by_cases hx : x = c
    · rw [if_pos hx] at h
      cases h
      simp
    · rw [if_neg hx] at h
      rcases Option.map_eq_some'.mp h with ⟨j, hj, rfl⟩
      have := ih hj
      simp only [List.length_cons]
      omega

theorem tagsFromPiecesGo_ok :
    ∀ (ps : List (List Char)) (acc : List (List Char × List Char)),
    (∀ p ∈ ps, '=' ∈ p) → ∃ t, tagsFromPiecesGo ps acc = .ok t := by
  intro ps
  induction ps with
  | nil => exact fun acc _ => ⟨⟨acc⟩, rfl⟩
  | cons p rest ih =>
    intro acc hall
    have hp : '=' ∈ p := hall p (by simp)
    have hne : findIdxC '=' p ≠ none :=
      fun h => ((findIdxC_eq_none_iff _ _).mp h) hp
    rcases hopt : findIdxC '=' p with _ | i
    · exact absurd hopt hne
    · simp only [tagsFromPiecesGo, splitOnceC, hopt]
      exact ih _ (fun q hq => hall q (by simp [hq]))

theorem tagsFromPiecesGo_panic :
    ∀ (ps : List (List Char)) (acc : List (List Char × List Char)),
    (∃ p ∈ ps, '=' ∉ p) → tagsFromPiecesGo ps acc = .panic := by
  intro ps
  induction ps with
  | nil => intro acc h; simp at h
  | cons p rest ih =>
    intro acc h
    rcases hopt : findIdxC '=' p with _ | i
    · simp [tagsFromPiecesGo, splitOnceC, hopt]
    · have hmem : '=' ∈ p := by
        by_contra hc
        rw [(findIdxC_eq_none_iff _ _).mpr hc] at hopt
        cases hopt
      simp only [tagsFromPiecesGo, splitOnceC, hopt]
      apply ih
      rcases h with ⟨q, hq, hqe⟩
      rcases List.mem_cons.mp hq with rfl | hq
      · exact absurd hmem hqe
      · exact ⟨q, hq, hqe⟩

/-- C1 (amended): `Tags::parse` is total and yields `None` on a missing or
unterminated tag block, and succeeds when every `';'`-separated piece of the
tag block contains `'='`; but a tag piece lacking `'='` makes it panic
(`split_once('=').unwrap()`) instead of returning `None`. -/
theorem c1_tags_parse_characterization (raw : List Char) :
    (raw.head? ≠ some '@' → Tags.parse raw 0 = .ok none) ∧
    (raw.head? = some '@' → findIdxC ' ' raw = none → Tags.parse raw 0 = .ok none) ∧
    (∀ i, raw.head? = some '@' → findIdxC ' ' raw = some i →
      (∀ p ∈ splitOnC ';' (raw.take i), '=' ∈ p) →
      ∃ t, Tags.parse raw 0 = .ok (some (t, i + 1))) ∧
    (∀ i, raw.head? = some '@' → findIdxC ' ' raw = some i →
      (∃ p ∈ splitOnC ';' (raw.take i), '=' ∉ p) →
      Tags.parse raw 0 = .panic) := by
  refine ⟨?_, ?_, ?_, ?_⟩
  · intro h
    simp only [Tags.parse, List.drop_zero, if_pos (Nat.zero_le _)]
    rw [if_neg h]
  · intro h hs
    simp only [Tags.parse, List.drop_zero, if_pos (Nat.zero_le _)]
    rw [if_pos h, hs]
  · intro i h hs hall
    have hlt : i < raw.length := findIdxC_lt_length hs
    rcases tagsFromPiecesGo_ok (splitOnC ';' (raw.take i)) [] hall with ⟨t, ht⟩
    refine ⟨t, ?_⟩
    simp only [Tags.parse, List.drop_zero, if_pos (Nat.zero_le _)]
    rw [if_pos h, hs]
    simp only [rustSlice, Nat.sub_zero, List.drop_zero,
      if_pos (And.intro (Nat.zero_le i) (Nat.le_of_lt hlt)), PResult.bind,
      tagsFromPieces, ht]
  · intro i h hs hex
    have hlt : i < raw.length := findIdxC_lt_length hs
    simp only [Tags.parse, List.drop_zero, if_pos (Nat.zero_le _)]
    rw [if_pos h, hs]
    simp only [rustSlice, Nat.sub_zero, List.drop_zero,
      if_pos (And.intro (Nat.zero_le i) (Nat.le_of_lt hlt)), PResult.bind,
      tagsFromPieces, tagsFromPiecesGo_panic (splitOnC ';' (raw.take i)) [] hex]

/-- C1 witness: a well-formed tag block parses successfully
(`"@a=b x"`, space at index 4, block `"@a=b"`). -/
theorem c1_tags_parse_characterization_witness :
    ∃ t, Tags.parse ("@a=b x".toList) 0 = .ok (some (t, 5)) :=
  (c1_tags_parse_characterization ("@a=b x".toList)).2.2.1 4 (by decide) (by decide)
    (by decide)

/-- C1 counterexample: the line `"@foo :h x"` has a tag piece (`"@foo"`)
without `'='`; `IRCMessage::parse` panics on it instead of returning
`None`, refuting "total, never throws". -/
theorem c1_counterexample : IRCMessage.parse ("@foo :h x".toList) = .panic := by decide

/-- C4 (amended): if the whole remaining line contains no `'!'`, the prefix
parses to `nick = none`, `user = none`, `host` = the text strictly between
the leading `':'` and the first space. -/
theorem c4_no_bang_host (raw : List Char) (i : Nat)
    (hc : raw.head? = some ':')
    (hsp : findIdxC ' ' raw = some i)
    (hb : '!' ∉ raw) :
    IrcPrefix.parse raw 0 =
      .ok (some (⟨none, none, (raw.drop 1).take (i - 1)⟩, i + 1)) := by
  have hne : findIdxC '!' raw = none := (findIdxC_eq_none_iff _ _).mpr hb
  have hlt : i < raw.length := findIdxC_lt_length hsp
  have h1 : 1 ≤ i := by
    cases raw with
    | nil => simp at hc
    | cons x tl =>
      have hx : x = ':' := by simpa using hc
      subst hx
      simp only [findIdxC, if_neg (by decide : ¬(':' = ' '))] at hsp
      rcases Option.map_eq_some'.mp hsp with ⟨j, _, rfl⟩
      omega
  simp only [IrcPrefix.parse, List.drop_zero, if_pos (Nat.zero_le _)]
  rw [if_pos hc, hsp, hne]
  simp only [Nat.zero_add, rustSlice,
    if_pos (And.intro h1 (Nat.le_of_lt hlt)), PResult.bind]

/-- C4 witness: `":host cmd"` (no `'!'` anywhere) parses to host `"host"`. -/
theorem c4_no_bang_host_witness :
    IrcPrefix.parse (":host cmd".toList) 0 =
      .ok (some (⟨none, none, "host".toList⟩, 6)) := by
  have h := c4_no_bang_host (":host cmd".toList) 5 (by decide) (by decide) (by decide)
  exact h.trans (by decide)

/-- C4 counterexample: in `":host x!"` the prefix span `":host "` contains
no `'!'`, yet the parser (which searches the whole remainder for `'!'`)
returns `None` instead of the claimed
`some ⟨nick := none, user := none, host := "host"⟩`. -/
theorem c4_counterexample :
    IrcPrefix.parse (":host x!".toList) 0 = .ok none ∧
    (PResult.ok none : PResult (Option (IrcPrefix × Nat))) ≠
      .ok (some (⟨none, none, "host".toList⟩, 6)) := by decide

/-- C9: the command part `"PRIVMSG #chan :hello\r\n"` parses to the
`Privmsg` variant with channel `"chan"` and message `"hello\r\n"`
(trailing terminator included). -/
theorem c9_privmsg_parse :
    IRCCommand.parse ("PRIVMSG #chan :hello\r\n".toList) 0 =
      .ok (some (.Privmsg ("chan".toList) ("hello\r\n".toList))) := by decide

/-- C10: a command tail starting with `"PRIVMSG "` but lacking `'#'` or
`':'` makes `IRCCommand::parse` return `None` (and `IRCMessage::parse`
propagates that `None`, dropping the line), while a tail not starting
with `"PRIVMSG "` always yields some command (fallback `Unknown`). -/
theorem c10_privmsg_null (raw : List Char) (pos : Nat) (hp : pos ≤ raw.length) :
    (("PRIVMSG ".toList).isPrefixOf (raw.drop pos) = true →
      (findIdxC '#' ((raw.drop pos).drop 8) = none ∨
       findIdxC ':' ((raw.drop pos).drop 8) = none) →
      IRCCommand.parse raw pos = .ok none) ∧
    (("PRIVMSG ".toList).isPrefixOf (raw.drop pos) = false →
      ∃ cmd, IRCCommand.parse raw pos = .ok (some cmd)) ∧
    (∀ pfx pos2, Tags.parse raw 0 ≠ .panic →
      IrcPrefix.parse raw (tagsPosOf raw) = .ok (some (pfx, pos2)) →
      IRCCommand.parse raw pos2 = .ok none →
      IRCMessage.parse raw = .ok none) := by
  refine ⟨?_, ?_, ?_⟩
  · intro hpre hmiss
    simp only [IRCCommand.parse, if_pos hp, hpre, if_true]
    rcases hmiss with hmiss | hmiss
    · rw [hmiss]
    · rcases hcs : findIdxC '#' ((raw.drop pos).drop 8) with _ | cs
      · rfl
      · rw [hmiss]
  · intro hpre
    simp only [IRCCommand.parse, if_pos hp, hpre, Bool.false_eq_true, if_false]
    split_ifs <;> exact ⟨_, rfl⟩
  · intro pfx pos2 hnp hpfx hcmd
    rcases hT : Tags.parse raw 0 with _ | tagsOpt
    · exact absurd hT hnp
    · have hpos : tagsPosOf raw =
          (match tagsOpt with | some (_, p) => p | none => 0) := by
        cases tagsOpt with
        | none => simp [tagsPosOf, hT]
        | some tp => cases tp; simp [tagsPosOf, hT]
      cases tagsOpt with
      | none =>
        rw [hpos] at hpfx
        simp only [IRCMessage.parse, hT, hpfx, hcmd]
      | some tp =>
        cases tp
        rw [hpos] at hpfx
        simp only [IRCMessage.parse, hT, hpfx, hcmd]

/-- C10 witness: `":h PRIVMSG x"` — command tail starts with `"PRIVMSG "`
but has no `'#'`, so the command parse yields `None`. -/
theorem c10_privmsg_null_witness :
    IRCCommand.parse (":h PRIVMSG x".toList) 3 = .ok none :=
  (c10_privmsg_null (":h PRIVMSG x".toList) 3 (by decide)).1 (by decide)
    (Or.inl (by decide))

theorem drawPrints_length (firstRow : Nat) (ms : List Privmsg) :
    (drawPrints firstRow ms).length = ms.length := by
  induction ms generalizing firstRow with
  | nil => rfl
  | cons m ms ih => simp [drawPrints, ih]

theorem drawPrints_map_snd (firstRow : Nat) (ms : List Privmsg) :
    (drawPrints firstRow ms).map Prod.snd = ms.map Privmsg.message_line := by
  induction ms generalizing firstRow with
  | nil => rfl
  | cons m ms ih => simp [drawPrints, ih]

theorem drawPrints_map_fst_get? (firstRow : Nat) (ms : List Privmsg) (k : Nat)
    (hk : k < ms.length) :
    ((drawPrints firstRow ms).map Prod.fst).get? k = some (firstRow + k) := by
  induction ms generalizing firstRow k with
  | nil => simp at hk
  | cons m ms ih =>
    cases k with
    | zero => simp [drawPrints]
    | succ k =>
      simp only [drawPrints, List.map_cons, List.get?_cons_succ]
      rw [ih (firstRow + 1) k (by simpa using hk)]
      congr 1
      omega

/-- C5 (amended): rendering queues exactly `min(N, screenRows)` most-recent
scrollback entries (not `min(N, screenRows − 1)`), oldest at the top,
on consecutive rows starting at `screenRows − N − 1` (truncated), and then
prints the compose buffer at row index `screenRows` — one past the last
valid 0-indexed screen row. -/
theorem c5_draw_characterization (chat : List Privmsg) (send : List Char) (tr : Nat) :
    ∃ prints, draw chat send tr = prints ++ [(tr, send)] ∧
      prints.length = min chat.length tr ∧
      prints.map Prod.snd = (chat.drop (chat.length - tr)).map Privmsg.message_line ∧
      (∀ k, k < min chat.length tr →
        (prints.map Prod.fst).get? k = some (tr - chat.length - 1 + k)) := by
  refine ⟨drawPrints (tr - chat.length - 1) (chat.drop (chat.length - tr)),
    rfl, ?_, drawPrints_map_snd _ _, ?_⟩
  · rw [drawPrints_length, List.length_drop]
    omega
  · intro k hk
    exact drawPrints_map_fst_get? _ _ k (by rw [List.length_drop]; omega)

/-- C5 witness: one entry on a 4-row screen is printed at row 2 with the
compose buffer print following at row 4. -/
theorem c5_draw_characterization_witness :
    ∃ prints, draw [⟨⟨[]⟩, ⟨none, none, "h".toList⟩, "c".toList, "m1".toList⟩]
        ("hi".toList) 4 = prints ++ [(4, "hi".toList)] ∧
      prints.length = min 1 4 ∧
      prints.map Prod.snd =
        (([⟨⟨[]⟩, ⟨none, none, "h".toList⟩, "c".toList, "m1".toList⟩] :
          List Privmsg).drop (1 - 4)).map Privmsg.message_line ∧
      (∀ k, k < min 1 4 → (prints.map Prod.fst).get? k = some (4 - 1 - 1 + k)) :=
  c5_draw_characterization _ _ 4

/-- C5 counterexample: with `N = screenRows = 2` the claim demands
`min(2, 1) = 1` displayed entry, but `draw` prints both entries (rows 0
and 1) and puts the compose buffer at row 2 = `screenRows`, which is not
the last screen row (1). -/
theorem c5_counterexample :
    draw [⟨⟨[]⟩, ⟨none, none, "h".toList⟩, "c".toList, "m1".toList⟩,
          ⟨⟨[]⟩, ⟨none, none, "h".toList⟩, "c".toList, "m2".toList⟩]
        ("x".toList) 2 =
      [(0, "c: m1".toList), (1, "c: m2".toList), (2, "x".toList)] ∧
    min 2 (2 - 1) = 1 ∧ ((2:Nat) ≠ 1) := by decide

/-- C7: the handshake sends the capability request, awaits the first
inbound event under the 5-second timeout, fails fatally (sending nothing
further) on timeout, closed queue, or any non-`CapAck` event, and on
`CapAck` sends exactly `PASS`, `NICK`, `JOIN` in that order and returns
the session. -/
theorem c7_handshake (auth nick chan : List Char) :
    handshakeTimeoutSecs = 5 ∧
    IRC.new auth nick chan .timeout = ([capabilityRequest], false) ∧
    IRC.new auth nick chan .closed = ([capabilityRequest], false) ∧
    (∀ m : IRCMessage, m.command ≠ .CapAck →
      IRC.new auth nick chan (.received m) = ([capabilityRequest], false)) ∧
    (∀ m : IRCMessage, m.command = .CapAck →
      IRC.new auth nick chan (.received m) =
        ([capabilityRequest,
          "PASS oauth:".toList ++ auth ++ "\r\n".toList,
          "NICK ".toList ++ nick ++ "\r\n".toList,
          "JOIN #".toList ++ chan ++ "\r\n".toList], true)) := by
  refine ⟨rfl, rfl, rfl, ?_, ?_⟩
  · rintro ⟨t, p, cmd⟩ hm
    cases cmd <;> first | rfl | exact absurd rfl hm
  · rintro ⟨t, p, cmd⟩ hm
    cases cmd <;> first | rfl | simp at hm

/-- C7 witness: a concrete `CapAck` first event yields the four outbound
records in order and a session; a concrete `Ping` first event fails with
only the capability request sent. -/
theorem c7_handshake_witness :
    IRC.new ("tok".toList) ("nick".toList) ("chan".toList)
      (.received ⟨⟨[]⟩, ⟨none, none, "h".toList⟩, .CapAck⟩) =
      ([capabilityRequest,
        "PASS oauth:".toList ++ "tok".toList ++ "\r\n".toList,
        "NICK ".toList ++ "nick".toList ++ "\r\n".toList,
        "JOIN #".toList ++ "chan".toList ++ "\r\n".toList], true) ∧
    IRC.new ("tok".toList) ("nick".toList) ("chan".toList)
      (.received ⟨⟨[]⟩, ⟨none, none, "h".toList⟩, .Ping⟩) =
      ([capabilityRequest], false) :=
  ⟨(c7_handshake ("tok".toList) ("nick".toList) ("chan".toList)).2.2.2.2 _ rfl,
   (c7_handshake ("tok".toList) ("nick".toList) ("chan".toList)).2.2.2.1 _ (by decide)⟩

/-- C2 (amended): in Insert mode, Backspace with a nonempty buffer and
`column ≤ length` removes the character at index `column − 1`
(saturating, so at column 0 it deletes the FIRST character while the
column stays 0) and saturating-decrements the column; with an empty
buffer, or `column > length`, it is a no-op. -/
theorem c2_backspace_characterization (st : AppState) (tr tc : Nat) (caps : Caps)
    (ctrl : Bool) (hm : st.mode = .Insert) :
    (0 < st.column → st.column ≤ st.sendMessage.length →
      dispatch tr tc caps st ⟨.backspace, ctrl⟩ =
        .cont { st with
          sendMessage := st.sendMessage.take (st.column - 1) ++
            st.sendMessage.drop st.column,
          column := st.column - 1 }) ∧
    (st.column = 0 → 0 < st.sendMessage.length →
      dispatch tr tc caps st ⟨.backspace, ctrl⟩ =
        .cont { st with sendMessage := st.sendMessage.drop 1, column := 0 }) ∧
    (st.sendMessage = [] ∨ st.sendMessage.length < st.column →
      dispatch tr tc caps st ⟨.backspace, ctrl⟩ = .cont st) := by
  refine ⟨?_, ?_, ?_⟩
  · intro hc hle
    simp only [dispatch]
    rw [if_pos hm, if_pos (And.intro hle (by omega))]
    have hsucc : st.column - 1 + 1 = st.column := by omega
    rw [List.eraseIdx_eq_take_drop_succ, hsucc]
  · intro hc hlen
    simp only [dispatch]
    rw [if_pos hm, if_pos (And.intro (by omega) hlen)]
    rw [List.eraseIdx_eq_take_drop_succ, hc]
    rfl
  · intro h
    have hneg : ¬(st.column ≤ st.sendMessage.length ∧ 0 < st.sendMessage.length) := by
      rcases h with h | h
      · simp [h]
      · omega
    simp only [dispatch]
    rw [if_pos hm, if_neg hneg]

/-- C2 witness: Backspace at column 2 in `"abc"` yields `"ac"`, column 1. -/
theorem c2_backspace_characterization_witness :
    dispatch 24 80 ⟨none, true, true, [], []⟩
      { mode := .Insert, row := 23, column := 2, sendMessage := "abc".toList,
        chatMessages := [], userTags := none } ⟨.backspace, false⟩ =
      .cont { mode := .Insert, row := 23, column := 1, sendMessage := "ac".toList,
              chatMessages := [], userTags := none } := by
  have h := (c2_backspace_characterization
    { mode := .Insert, row := 23, column := 2, sendMessage := "abc".toList,
      chatMessages := [], userTags := none } 24 80 ⟨none, true, true, [], []⟩
    false rfl).1 (by decide) (by decide)
  exact h.trans (by decide)

/-- C2 counterexample: Backspace at column 0 with buffer `"ab"` is claimed
to be a no-op, but the code removes the first character (buffer becomes
`"b"`). -/
theorem c2_counterexample :
    dispatch 24 80 ⟨none, true, true, [], []⟩
      { mode := .Insert, row := 23, column := 0, sendMessage := "ab".toList,
        chatMessages := [], userTags := none } ⟨.backspace, false⟩ =
      .cont { mode := .Insert, row := 23, column := 0, sendMessage := "b".toList,
              chatMessages := [], userTags := none } ∧
    ("b".toList ≠ "ab".toList) := by decide

/-- C8 (amended): paste (`P`) with a failing `clipboard.get_text()` is a
local no-op — no crash, no state change, mode stays `Normal`; but yank
(`yy` over an addressed entry) and delete (`dd` on the compose row) call
`clipboard.set_text(..).unwrap()`, which panics (crashes) when the
clipboard errors, instead of being a no-op. -/
theorem c8_paste_noop_on_clipboard_error (st : AppState) (tr tc : Nat) (caps : Caps)
    (ctrl : Bool) (hm : st.mode = .Normal) (hget : caps.clipGet = none) :
    dispatch tr tc caps st ⟨.char 'P', ctrl⟩ = .cont st := by
  simp only [dispatch, dispatchChar]
  rw [if_neg (fun h => absurd h.1 (by decide)),
      if_neg (fun h => absurd h.1 (by decide)),
      if_neg (fun h => absurd h.1 (by decide)),
      if_neg (fun h => absurd h.1 (by decide)),
      if_neg (fun h => absurd h.1 (by decide)),
      if_neg (fun h => absurd h.1 (by decide)),
      if_neg (fun h => absurd h.1 (by decide)),
      if_neg (fun h => absurd h.1 (by decide)),
      if_neg (fun h => absurd h.1 (by decide)),
      if_neg (fun h => absurd h.1 (by decide)),
      if_neg (fun h => absurd h.1 (by decide)),
      if_neg (fun h => absurd h.1 (by decide)),
      if_neg (fun h => absurd h.1 (by decide)),
      if_neg (fun h => by rw [hm] at h; cases h),
      if_neg (fun h => by rw [hm] at h; cases h)]
  simp [hm, hget]

/-- C8 witness: `P` in Normal mode with an erroring clipboard leaves the
state untouched. -/
theorem c8_paste_noop_on_clipboard_error_witness :
    dispatch 24 80 ⟨none, true, true, [], []⟩
      { mode := .Normal, row := 23, column := 0, sendMessage := "ab".toList,
        chatMessages := [], userTags := none } ⟨.char 'P', false⟩ =
      .cont { mode := .Normal, row := 23, column := 0, sendMessage := "ab".toList,
              chatMessages := [], userTags := none } :=
  c8_paste_noop_on_clipboard_error
    { mode := .Normal, row := 23, column := 0, sendMessage := "ab".toList,
      chatMessages := [], userTags := none } 24 80 ⟨none, true, true, [], []⟩
    false rfl rfl

/-- C8 counterexample: completing `yy` over an addressed scrollback entry
with a failing clipboard `set_text` panics (the `unwrap()` in the source)
instead of being a local no-op. -/
theorem c8_counterexample :
    dispatch 3 80 ⟨none, false, true, [], []⟩
      { mode := .Y, row := 1, column := 0, sendMessage := [],
        chatMessages := [⟨⟨[]⟩, ⟨none, none, "h".toList⟩, "c".toList, "m1".toList⟩],
        userTags := none } ⟨.char 'y', false⟩ = .panic := by decide

theorem dispatchChar_pending_y (tr tc : Nat) (caps : Caps) (st : AppState)
    (ctrl : Bool) (start idx : Nat) (c : Char) (hmode : st.mode = .Y)
    (h1 : ¬(c = 'q' ∧ ctrl = true)) (h2 : ¬(c = 'c' ∧ ctrl = true)) :
    dispatchChar tr tc caps st ctrl start idx c =
      if c = 'y' then
        match st.chatMessages.get? idx with
        | some _ =>
          if caps.clipSetOk then .cont { st with mode := .Normal } else .panic
        | none => .cont { st with mode := .Normal }
      else .cont { st with mode := .Normal } := by
  simp only [dispatchChar]
  rw [if_neg h1, if_neg h2,
      if_neg (fun h => by rw [hmode] at h; exact absurd h.2 (by decide)),
      if_neg (fun h => by rw [hmode] at h; exact absurd h.2 (by decide)),
      if_neg (fun h => by rw [hmode] at h; exact absurd h.2 (by decide)),
      if_neg (fun h => by rw [hmode] at h; exact absurd h.2 (by decide)),
      if_neg (fun h => by rw [hmode] at h; exact absurd h.2 (by decide)),
      if_neg (fun h => by rw [hmode] at h; exact absurd h.2 (by decide)),
      if_neg (fun h => by rw [hmode] at h; exact absurd h.2 (by decide)),
      if_neg (fun h => by rw [hmode] at h; exact absurd h.2 (by decide)),
      if_neg (fun h => by rw [hmode] at h; exact absurd h.2 (by decide)),
      if_neg (fun h => by rw [hmode] at h; exact absurd h.2 (by decide)),
      if_neg (fun h => by rw [hmode] at h; exact absurd h.2 (by decide)),
      if_pos hmode]

theorem dispatchChar_pending_d (tr tc : Nat) (caps : Caps) (st : AppState)
    (ctrl : Bool) (start idx : Nat) (c : Char) (hmode : st.mode = .D)
    (h1 : ¬(c = 'q' ∧ ctrl = true)) (h2 : ¬(c = 'c' ∧ ctrl = true)) :
    dispatchChar tr tc caps st ctrl start idx c =
      if c = 'd' then
        if tr = 0 then .panic
        else if st.row = tr - 1 then
          if caps.clipSetOk then
            .cont { st with mode := .Normal, sendMessage := [], column := 0 }
          else .panic
        else .cont { st with mode := .Normal }
      else .cont { st with mode := .Normal } := by
  simp only [dispatchChar]
  rw [if_neg h1, if_neg h2,
      if_neg (fun h => by rw [hmode] at h; exact absurd h.2 (by decide)),
      if_neg (fun h => by rw [hmode] at h; exact absurd h.2 (by decide)),
      if_neg (fun h => by rw [hmode] at h; exact absurd h.2 (by decide)),
      if_neg (fun h => by rw [hmode] at h; exact absurd h.2 (by decide)),
      if_neg (fun h => by rw [hmode] at h; exact absurd h.2 (by decide)),
      if_neg (fun h => by rw [hmode] at h; exact absurd h.2 (by decide)),
      if_neg (fun h => by rw [hmode] at h; exact absurd h.2 (by decide)),
      if_neg (fun h => by rw [hmode] at h; exact absurd h.2 (by decide)),
      if_neg (fun h => by rw [hmode] at h; exact absurd h.2 (by decide)),
      if_neg (fun h => by rw [hmode] at h; exact absurd h.2 (by decide)),
      if_neg (fun h => by rw [hmode] at h; exact absurd h.2 (by decide)),
      if_neg (fun h => by rw [hmode] at h; exact absurd h (by decide)),
      if_pos hmode]

/-- C3 (amended): from a pending operator mode (`Y` or `D`), assuming the
clipboard `set_text` succeeds and the screen has at least one row, any
*character* key either exits the loop (`Ctrl+q`/`Ctrl+c`) or reverts the
mode to `Normal`; `Esc` reverts to `Normal`; but every non-character,
non-`Esc` key (Enter, Backspace, Left, Right, End, …) matches no arm and
leaves the state — pending mode included — unchanged.  `Insert` is never
entered from a pending mode. -/
theorem c3_pending_mode_transitions (st : AppState) (tr tc : Nat) (caps : Caps)
    (k : KeyEvent) (hm : st.mode = .Y ∨ st.mode = .D)
    (hr : 1 ≤ tr) (hclip : caps.clipSetOk = true) :
    (∀ c, k.code = .char c →
      dispatch tr tc caps st k = .quit st ∨
      ∃ s', dispatch tr tc caps st k = .cont s' ∧ s'.mode = .Normal) ∧
    (k.code = .esc →
      dispatch tr tc caps st k = .cont { st with mode := .Normal }) ∧
    (k.code ≠ .esc → (∀ c, k.code ≠ .char c) →
      dispatch tr tc caps st k = .cont st) := by
  obtain ⟨code, ctrl⟩ := k
  refine ⟨?_, ?_, ?_⟩
  · rintro c rfl
    simp only [dispatch]
    by_cases h1 : c = 'q' ∧ ctrl = true
    · exact Or.inl (by simp only [dispatchChar]; rw [if_pos h1])
    by_cases h2 : c = 'c' ∧ ctrl = true
    · exact Or.inl (by simp only [dispatchChar]; rw [if_neg h1, if_pos h2])
    right
    rcases hm with hmode | hmode
    · by_cases hy : c = 'y'
      · rcases hget : st.chatMessages.get?
            (st.row - (tr - st.chatMessages.length - 1)) with _ | m
        · refine ⟨{ st with mode := .Normal }, ?_, rfl⟩
          rw [dispatchChar_pending_y tr tc caps st ctrl _ _ c hmode h1 h2,
            if_pos hy]
          simp only [hget]
        · refine ⟨{ st with mode := .Normal }, ?_, rfl⟩
          rw [dispatchChar_pending_y tr tc caps st ctrl _ _ c hmode h1 h2,
            if_pos hy]
          simp only [hget]
          rw [if_pos hclip]
      · refine ⟨{ st with mode := .Normal }, ?_, rfl⟩
        rw [dispatchChar_pending_y tr tc caps st ctrl _ _ c hmode h1 h2,
          if_neg hy]
    · by_cases hd : c = 'd'
      · by_cases hrow : st.row = tr - 1
        · refine ⟨{ st with mode := .Normal, sendMessage := [], column := 0 }, ?_, rfl⟩
          rw [dispatchChar_pending_d tr tc caps st ctrl _ _ c hmode h1 h2,
            if_pos hd, if_neg (show ¬ tr = 0 by omega), if_pos hrow, if_pos hclip]
        · refine ⟨{ st with mode := .Normal }, ?_, rfl⟩
          rw [dispatchChar_pending_d tr tc caps st ctrl _ _ c hmode h1 h2,
            if_pos hd, if_neg (show ¬ tr = 0 by omega), if_neg hrow]
      · refine ⟨{ st with mode := .Normal }, ?_, rfl⟩
        rw [dispatchChar_pending_d tr tc caps st ctrl _ _ c hmode h1 h2,
          if_neg hd]
  · rintro rfl
    rfl
  · intro hne hnc
    cases code with
    | esc => exact absurd rfl hne
    | char c => exact absurd rfl (hnc c)
    | enter => rcases hm with hmode | hmode <;> simp [dispatch, hmode]
    | backspace => rcases hm with hmode | hmode <;> simp [dispatch, hmode]
    | left => rcases hm with hmode | hmode <;> simp [dispatch, hmode]
    | right => rcases hm with hmode | hmode <;> simp [dispatch, hmode]
    | endKey => rcases hm with hmode | hmode <;> simp [dispatch, hmode]
    | other => rfl

/-- C3 witness: a plain character key (`'x'`) dispatched in pending mode
`Y` either quits or lands in `Normal` mode. -/
theorem c3_pending_mode_transitions_witness :
    dispatch 24 80 ⟨none, true, true, [], []⟩
      { mode := .Y, row := 23, column := 0, sendMessage := [],
        chatMessages := [], userTags := none } ⟨.char 'x', false⟩ =
      .quit { mode := .Y, row := 23, column := 0, sendMessage := [],
              chatMessages := [], userTags := none } ∨
    ∃ s', dispatch 24 80 ⟨none, true, true, [], []⟩
      { mode := .Y, row := 23, column := 0, sendMessage := [],
        chatMessages := [], userTags := none } ⟨.char 'x', false⟩ =
      .cont s' ∧ s'.mode = .Normal :=
  (c3_pending_mode_transitions
    { mode := .Y, row := 23, column := 0, sendMessage := [],
      chatMessages := [], userTags := none } 24 80 ⟨none, true, true, [], []⟩
    ⟨.char 'x', false⟩ (Or.inl rfl) (by decide) rfl).1 'x' rfl

/-- C3 counterexample: `Enter` dispatched in pending mode `Y` matches no
arm (the `Enter` arm is guarded by Insert mode): the state is unchanged
and the mode is still `Y`, not `Normal` — refuting "the pending mode is
left after consuming exactly one further key of any kind". -/
theorem c3_counterexample :
    dispatch 24 80 ⟨none, true, true, [], []⟩
      { mode := .Y, row := 23, column := 0, sendMessage := [],
        chatMessages := [], userTags := none } ⟨.enter, false⟩ =
      .cont { mode := .Y, row := 23, column := 0, sendMessage := [],
              chatMessages := [], userTags := none } ∧
    (Mode.Y ≠ Mode.Normal) := by decide

/-- C6 (amended): the full cursor invariant does not hold, but the parts
the code does enforce are: after `j` (in Normal mode, non-panicking), the
row is clamped to at most the compose row `totalRows − 1`, the compose
buffer is untouched, and if the cursor lands on the compose row the
column is clamped to the compose-buffer length; after `^` the column
is 0. -/
theorem c6_j_row_clamped (st : AppState) (tr tc : Nat) (caps : Caps) (ctrl : Bool)
    (hm : st.mode = .Normal) (hr : 1 ≤ tr) :
    (∀ s', dispatch tr tc caps st ⟨.char 'j', ctrl⟩ = .cont s' →
      s'.row ≤ tr - 1 ∧ s'.sendMessage = st.sendMessage ∧
      (tr - 1 ≤ s'.row → s'.column ≤ st.sendMessage.length)) ∧
    (∀ s', dispatch tr tc caps st ⟨.char '^', ctrl⟩ = .cont s' → s'.column = 0) := by
  constructor
  · intro s' hs'
    simp only [dispatch, dispatchChar] at hs'
    rw [if_neg (fun h => absurd h.1 (by decide)),
        if_neg (fun h => absurd h.1 (by decide)),
        if_neg (fun h => absurd h.1 (by decide)),
        if_neg (fun h => absurd h.1 (by decide)),
        if_pos (show True ∧ st.mode = .Normal from ⟨trivial, hm⟩),
        if_neg (show ¬ tr = 0 by omega)] at hs'
    split at hs'
    · injection hs' with h
      subst h
      refine ⟨Nat.min_le_left _ _, rfl, fun _ => Nat.min_le_right _ _⟩
    · rename_i hnotge
      split at hs'
      · cases hs'
      · split at hs'
        · injection hs' with h
          subst h
          refine ⟨Nat.min_le_left _ _, rfl, fun habs => absurd habs hnotge⟩
        · injection hs' with h
          subst h
          refine ⟨Nat.min_le_left _ _, rfl, fun habs => absurd habs hnotge⟩
  · intro s' hs'
    simp only [dispatch, dispatchChar] at hs'
    rw [if_neg (fun h => absurd h.1 (by decide)),
        if_neg (fun h => absurd h.1 (by decide)),
        if_neg (fun h => absurd h.1 (by decide)),
        if_neg (fun h => absurd h.1 (by decide)),
        if_neg (fun h => absurd h.1 (by decide)),
        if_neg (fun h => absurd h.1 (by decide)),
        if_neg (fun h => absurd h.1 (by decide)),
        if_neg (fun h => absurd h.1 (by decide)),
        if_neg (fun h => absurd h.1 (by decide)),
        if_neg (fun h => absurd h.1 (by decide)),
        if_pos (show True ∧ st.mode = .Normal from ⟨trivial, hm⟩)] at hs'
    injection hs' with h
    subst h
    rfl

/-- C6 witness: `j` from row 2 on a 3-row screen lands on the compose row
with the column clamped to the compose length 3. -/
theorem c6_j_row_clamped_witness :
    dispatch 3 80 ⟨none, true, true, [], []⟩
      { mode := .Normal, row := 2, column := 5, sendMessage := "abc".toList,
        chatMessages := [], userTags := none } ⟨.char 'j', false⟩ =
      .cont { mode := .Normal, row := 2, column := 3, sendMessage := "abc".toList,
              chatMessages := [], userTags := none } ∧
    (2:Nat) ≤ 3 - 1 ∧ (3:Nat) ≤ ("abc".toList).length := by
  have h := (c6_j_row_clamped
    { mode := .Normal, row := 2, column := 5, sendMessage := "abc".toList,
      chatMessages := [], userTags := none } 3 80 ⟨none, true, true, [], []⟩
    false rfl (by decide)).1
    { mode := .Normal, row := 2, column := 3, sendMessage := "abc".toList,
      chatMessages := [], userTags := none } (by decide)
  exact ⟨by decide, h.1, h.2.2 (by decide)⟩

/-- C6 counterexample: the initial state has `row = totalRows` (one past
the compose row), and dispatching the motion key `h` leaves `row =
totalRows`, violating `row ≤ lastRow = totalRows − 1` — so the claimed
invariant fails in a reachable state (the initial one). -/
theorem c6_counterexample :
    dispatch 3 80 ⟨none, true, true, [], []⟩ (initialState 3) ⟨.char 'h', false⟩ =
      .cont (initialState 3) ∧
    (initialState 3).row = 3 ∧ ¬ ((3:Nat) ≤ 3 - 1) := by decide

end TwitchIrc
